import Mathlib

set_option maxRecDepth 10000

/-!
Shallow embedding of the core of `main.py` (a personal-assistant console
application): the generic record store `DataManager`, the field validators
`Validator`, and the restricted arithmetic evaluator `Calculator`.

Modelling conventions:
* Python dicts become key-ordered association lists (`Record`); dict keys are
  unique in every record the program builds, and `dict.update` is modelled
  key by key, preserving the position of existing keys and appending new ones.
* Python numbers become `Int` (int) and `ℚ` (float, in exact arithmetic; IEEE
  rounding is outside the model and no theorem below depends on it).
* The backing JSON file is abstracted to `FileContent`: absent, malformed
  (unparseable JSON), or a well-formed serialized collection.
* Fallible code returns `Except`; the distinct Python exceptions that escape a
  function are distinct error constructors.
-/

/-- Scalar field values occurring in records (JSON scalars). -/
inductive Scalar
  | str (s : String)
  | int (n : Int)
  | float (q : ℚ)
  | bool (b : Bool)
deriving DecidableEq, Repr

/-- A Python dict from field name to value, in key insertion order. -/
abbrev Record := List (String × Scalar)

/-- A collection of records (`self.data` in `DataManager`). -/
abbrev Collection := List Record

/-- Python `d[k]` / `d.get(k)`: the value at the first (unique) matching key. -/
def rget : Record → String → Option Scalar
  | [], _ => none
  | (k0, v) :: r, k => if k0 == k then some v else rget r k

/-- Whether a dict has a key. -/
def hasKey (r : Record) (k : String) : Bool :=
  r.any (fun p => p.1 == k)

/-- The per-pair overwrite used by `dictSet`. -/
def setPair (k : String) (v : Scalar) (p : String × Scalar) : String × Scalar :=
  if p.1 == k then (k, v) else p

/-- Python `d[k] = v`: overwrite in place when the key exists (position kept),
append otherwise. -/
def dictSet (r : Record) (k : String) (v : Scalar) : Record :=
  if hasKey r k then r.map (setPair k v)
  else r ++ [(k, v)]

/-- Python `d.update(u)`: fold `dictSet` over the patch in its key order. -/
def dictUpdate (r u : Record) : Record :=
  u.foldl (fun d p => dictSet d p.1 p.2) r

/-- The last binding of key `k` in a dict literal (the value `dict.update`
leaves for `k` when `k` occurs). For dicts with unique keys this is the
binding of `k`. -/
def lastBind : Record → String → Option Scalar
  | [], _ => none
  | (k0, v0) :: r, k =>
    match lastBind r k with
    | some v => some v
    | none => if k0 == k then some v0 else none

/-- Python `value == id` where `id : int`: numeric cross-type equality
(`True == 1`, `1.0 == 1`); strings never equal ints. -/
def scalarEqInt : Scalar → Int → Bool
  | .int n, i => n == i
  | .float q, i => q == (i : ℚ)
  | .bool b, i => (if b then (1 : Int) else 0) == i
  | .str _, _ => false

/-- Python `item['id'] == id`. A record without an `'id'` key would raise
`KeyError` in Python; every record the program constructs carries `'id'`
(`DataModel.__init__`), and the theorems below assume that invariant, under
which this lookup never fails; a missing key is modelled as a non-match. -/
def idMatches (r : Record) (id : Int) : Bool :=
  match rget r "id" with
  | some v => scalarEqInt v id
  | none => false

/-- The update loop of `DataManager.update_item`: merge the patch into the
first record whose `'id'` matches, report whether a match was found. -/
def updateFirst : Collection → Int → Record → Bool × Collection
  | [], _, _ => (false, [])
  | r :: rest, id, u =>
    if idMatches r id then (true, dictUpdate r u :: rest)
    else ((updateFirst rest id u).1, r :: (updateFirst rest id u).2)

/-- The backing storage file of a `DataManager`. -/
inductive FileContent
  | absent
  | malformed
  | wellFormed (c : Collection)
deriving DecidableEq, Repr

/-- Errors escaping `DataManager.load_data`. -/
inductive LoadErr
  | jsonDecodeError
deriving DecidableEq, Repr

/-- In-memory state of a `DataManager`: its collection and its backing file. -/
structure DataManager where
  data : Collection
  file : FileContent
deriving DecidableEq, Repr

/-- `DataManager.load_data`: `json.load` of the backing file; only
`FileNotFoundError` is caught (absent file gives `[]`); a malformed file makes
`json.load` raise `json.JSONDecodeError`, which propagates uncaught. -/
def DataManager.load_data : FileContent → Except LoadErr Collection
  | .absent => .ok []
  | .malformed => .error .jsonDecodeError
  | .wellFormed c => .ok c

/-- `DataManager.save_data`: serialize the whole collection over the file. -/
def DataManager.save_data (m : DataManager) : DataManager :=
  ⟨m.data, .wellFormed m.data⟩

/-- `DataManager.add_item`: append, then persist. -/
def DataManager.add_item (m : DataManager) (r : Record) : DataManager :=
  DataManager.save_data ⟨m.data ++ [r], m.file⟩

/-- `DataManager.get_item`: first record with matching `'id'`, else `None`. -/
def DataManager.get_item (m : DataManager) (id : Int) : Option Record :=
  m.data.find? (fun r => idMatches r id)

/-- `DataManager.update_item`: merge the patch into the first matching record
and persist, returning `True`; return `False` untouched when nothing matches. -/
def DataManager.update_item (m : DataManager) (id : Int) (u : Record) :
    DataManager × Bool :=
  if (updateFirst m.data id u).1 then
    (DataManager.save_data ⟨(updateFirst m.data id u).2, m.file⟩, true)
  else (m, false)

/-- `DataManager.delete_item`: reassign `self.data` to the records whose
`'id'` differs, persist only when the length shrank. -/
def DataManager.delete_item (m : DataManager) (id : Int) : DataManager × Bool :=
  if ((m.data.filter (fun r => !idMatches r id)).length < m.data.length) then
    (DataManager.save_data ⟨m.data.filter (fun r => !idMatches r id), m.file⟩, true)
  else (⟨m.data.filter (fun r => !idMatches r id), m.file⟩, false)

/-- Python `str()` of a scalar. The float branch stands in for Python's
shortest-round-trip float repr, which lives outside the exact-arithmetic
model; no theorem below depends on it. -/
def pyStr : Scalar → String
  | .str s => s
  | .int n => toString n
  | .bool b => if b then "True" else "False"
  | .float q => if q.den == 1 then toString q.num ++ ".0"
                else toString q.num ++ "/" ++ toString q.den

/-- Python `str.lower()` (ASCII model; the theorems below never depend on
case folding of non-ASCII text). Written over the character list so that it
computes by reduction. -/
def lowerStr (s : String) : String := String.mk (s.toList.map Char.toLower)

/-- Whether `needle` is a prefix of `hay`. -/
def beginsWith : List Char → List Char → Bool
  | [], _ => true
  | _ :: _, [] => false
  | a :: as, b :: bs => a == b && beginsWith as bs

/-- Whether `needle` occurs as a contiguous substring of `hay`
(Python `hay.find(needle) != -1`; the empty needle always occurs). -/
def hasSub : List Char → List Char → Bool
  | n, [] => n.isEmpty
  | n, c :: cs => beginsWith n (c :: cs) || hasSub n cs

/-- One conjunct of the search predicate:
`str(value).lower().find(keyword.lower()) != -1`. -/
def valueMatches (kw : String) (v : Scalar) : Bool :=
  hasSub (lowerStr kw).toList (lowerStr (pyStr v)).toList

/-- Python `any(... for value in item.values())`. -/
def recordMatches (kw : String) (r : Record) : Bool :=
  r.any (fun p => valueMatches kw p.2)

/-- `DataManager.search_items`: keep the records (in collection order) where
some field's lower-cased string form contains the lower-cased keyword. -/
def DataManager.search_items (m : DataManager) (kw : String) : Collection :=
  m.data.filter (fun r => recordMatches kw r)

/-! ## Validator -/

/-- Numeric value of a digit run. -/
def digitsVal (ds : List Char) : Nat :=
  ds.foldl (fun a c => a * 10 + (c.toNat - 48)) 0

/-- Gregorian leap year, as `calendar`/`datetime` use it. -/
def isLeap (y : Nat) : Bool :=
  y % 4 == 0 && (y % 100 != 0 || y % 400 == 0)

/-- Days in a month, as `datetime.date` validates them. -/
def daysInMonth (m y : Nat) : Nat :=
  if m == 2 then (if isLeap y then 29 else 28)
  else if m == 4 || m == 6 || m == 9 || m == 11 then 30
  else 31

/-- One numeric `strptime` field made of 1 or 2 digits (`%d`, `%m`, `%H`,
`%M`, `%S`). CPython compiles these to a regex alternation (two-digit windows
first, then a one-digit fallback); since in the formats used here every such
field is followed by a non-digit separator or the end of input, that
alternation accepts exactly: a maximal run of two digits whose value lies in
`[twoLo, twoHi]`, or a maximal run of one digit whose value is at least
`oneLo`. Longer digit runs never match. -/
def parseField (oneLo twoLo twoHi : Nat) (cs : List Char) :
    Option (Nat × List Char) :=
  let ds := cs.takeWhile Char.isDigit
  let rest := cs.dropWhile Char.isDigit
  if ds.length == 2 then
    let v := digitsVal ds
    if twoLo ≤ v && v ≤ twoHi then some (v, rest) else none
  else if ds.length == 1 then
    let v := digitsVal ds
    if oneLo ≤ v then some (v, rest) else none
  else none

/-- `strptime`'s `%Y`: exactly four digits. -/
def parseYear (cs : List Char) : Option (Nat × List Char) :=
  let ds := cs.takeWhile Char.isDigit
  let rest := cs.dropWhile Char.isDigit
  if ds.length == 4 then some (digitsVal ds, rest) else none

/-- Expect one character with the given code point. -/
def expectChar (n : Nat) : List Char → Option (List Char)
  | c :: cs => if c.toNat == n then some cs else none
  | [] => none

/-- The `"%d-%m-%Y"` part: day, `'-'`, month, `'-'`, four-digit year. -/
def parseDMY (cs : List Char) : Option (Nat × Nat × Nat × List Char) := do
  let (d, r1) ← parseField 1 1 31 cs
  let r2 ← expectChar 45 r1
  let (mo, r3) ← parseField 1 1 12 r2
  let r4 ← expectChar 45 r3
  let (y, r5) ← parseYear r4
  some (d, mo, y, r5)

/-- The `"%H:%M:%S"` part. The `%S` window reaches 61 in the regex, but the
`datetime` constructor then rejects seconds above 59. -/
def parseHMS (cs : List Char) : Option (Nat × Nat × Nat × List Char) := do
  let (h, r1) ← parseField 0 0 23 cs
  let r2 ← expectChar 58 r1
  let (mi, r3) ← parseField 0 0 59 r2
  let r4 ← expectChar 58 r3
  let (s, r5) ← parseField 0 0 61 r4
  some (h, mi, s, r5)

/-- ASCII whitespace, the `\s` class restricted to ASCII
(space, tab, newline, vertical tab, form feed, carriage return). -/
def isSpaceChar (c : Char) : Bool :=
  c.toNat == 32 || c.toNat == 9 || c.toNat == 10 || c.toNat == 11 ||
  c.toNat == 12 || c.toNat == 13

/-- `Validator.validate_date`: `strptime` with `"%d-%m-%Y"` (or
`"%d-%m-%Y %H:%M:%S"` when `with_time`), full-string match, then calendar
validity via the `datetime` constructor (year at least 1, day within the
month, seconds at most 59); `ValueError` is caught and becomes `False`. -/
def Validator.validate_date (date_str : String) (with_time : Bool) : Bool :=
  match parseDMY date_str.toList with
  | none => false
  | some (d, mo, y, r) =>
    let dateOk := decide (1 ≤ y) && decide (d ≤ daysInMonth mo y)
    if with_time then
      match parseHMS (r.dropWhile isSpaceChar) with
      | none => false
      | some (_, _, s, r2) =>
        dateOk && decide (1 ≤ (r.takeWhile isSpaceChar).length) &&
        r2.isEmpty && decide (s ≤ 59)
    else dateOk && r.isEmpty

/-- The regex class `[a-zA-Z0-9._%+-]` of the email local part. -/
def isLocalChar (c : Char) : Bool :=
  c.isAlpha || c.isDigit || c.toNat == 46 || c.toNat == 95 ||
  c.toNat == 37 || c.toNat == 43 || c.toNat == 45

/-- The regex class `[a-zA-Z0-9.-]` of the email domain part. -/
def isDomainChar (c : Char) : Bool :=
  c.isAlpha || c.isDigit || c.toNat == 46 || c.toNat == 45

/-- Split at the first `'@'` (code point 64), when present. -/
def breakAtSign : List Char → Option (List Char × List Char)
  | [] => none
  | c :: cs =>
    if c.toNat == 64 then some ([], cs)
    else (breakAtSign cs).map (fun p => (c :: p.1, p.2))

/-- The whole tail after `'@'` must match `[a-zA-Z0-9.-]+\.[a-zA-Z]{2,}`:
since the TLD must run to the end, it is the maximal trailing run of ASCII
letters; it needs length at least 2, a `'.'` right before it, and a nonempty
all-domain-chars part before that. -/
def emailDomainOk (cs : List Char) : Bool :=
  let rcs := cs.reverse
  decide (2 ≤ (rcs.takeWhile Char.isAlpha).length) &&
  (match rcs.dropWhile Char.isAlpha with
   | c :: pre => c.toNat == 46 && !pre.isEmpty && pre.all isDomainChar
   | [] => false)

/-- A regex `$` (without `re.MULTILINE`) also matches just before one
trailing newline; no class of the email/phone patterns contains `'\n'`
except `\s`, so dropping one trailing newline first models it. -/
def dropTrailingNewline (cs : List Char) : List Char :=
  match cs.reverse with
  | c :: rest => if c.toNat == 10 then rest.reverse else cs
  | [] => cs

/-- `Validator.validate_email`:
`re.match(r'^[a-zA-Z0-9._%+-]+@[a-zA-Z0-9.-]+\.[a-zA-Z]{2,}$', email)` as a
boolean. No character class contains `'@'`, so a match has exactly one `'@'`,
splitting the string into the local part and the domain part. -/
def Validator.validate_email (email : String) : Bool :=
  match breakAtSign (dropTrailingNewline email.toList) with
  | some (loc, dom) =>
    !loc.isEmpty && loc.all isLocalChar &&
    !(dom.any (fun c => c.toNat == 64)) && emailDomainOk dom
  | none => false

/-- The regex class `[\d\s-]` of the phone pattern (ASCII model). -/
def isPhoneChar (c : Char) : Bool :=
  c.isDigit || isSpaceChar c || c.toNat == 45

/-- `Validator.validate_phone`: `re.match(r'^\+?[\d\s-]{10,}$', phone)` as a
boolean: an optional leading `'+'`, then at least 10 digit/whitespace/hyphen
characters filling the rest of the string (a trailing newline is itself in
`\s`, so the `$` newline allowance changes nothing). -/
def Validator.validate_phone (phone : String) : Bool :=
  let cs := phone.toList
  let cs1 := match cs with
    | c :: rest => if c.toNat == 43 then rest else cs
    | [] => []
  decide (10 ≤ cs1.length) && cs1.all isPhoneChar

/-! ## Calculator

`Calculator.calculate` filters the input to the character set
`0123456789.+-*/() ` and then hands the string to `eval` with an empty
builtin namespace, catching `SyntaxError`, `NameError` and
`ZeroDivisionError` and re-raising them as `ValueError("Invalid expression")`.

Within that character set, Python's expression grammar offers exactly:
integer and float literals, `...` (Ellipsis), the empty tuple `()`, unary
`+`/`-`, the binary operators `+ - * / // **`, parenthesised grouping, and
call syntax `f(x)` / `f()`. No letter or underscore passes the filter, so
identifiers, attribute names and keywords are unreachable and `NameError` can
in fact never fire. The tokenizer, parser and evaluator below embed that
fragment: the parser follows Python's precedence levels (`**` binds tightest
and right-associatively with a unary-expression right operand, then unary
sign, then `* / //`, then `+ -`, all left-associative), and the evaluator
follows Python's numeric semantics in exact arithmetic (`ℚ` in place of IEEE
floats; a power with a non-integral exponent is the one operation whose float
result leaves exact arithmetic, marked `floatPow` and used by no theorem). -/

/-- Membership in `set('0123456789.+-*/() ')`, written by code point:
digits 48-57, `'.'` 46, `'+'` 43, `'-'` 45, `'*'` 42, `'/'` 47, `'('` 40,
`')'` 41, space 32. -/
def allowedChar (c : Char) : Bool :=
  (48 ≤ c.toNat && c.toNat ≤ 57) || c.toNat == 46 || c.toNat == 43 ||
  c.toNat == 45 || c.toNat == 42 || c.toNat == 47 || c.toNat == 40 ||
  c.toNat == 41 || c.toNat == 32

/-- `all(c in allowed_chars for c in expression)`. -/
def charsValid (s : String) : Bool := s.toList.all allowedChar

/-- Runtime outcomes of `eval` on the restricted fragment, by the Python
exception class that escapes it. -/
inductive RunErr
  | malformed   -- SyntaxError (tokenizer or parser)
  | zeroDiv     -- ZeroDivisionError
  | typeErr     -- TypeError (calls, tuple/Ellipsis operands)
  | floatPow    -- non-integral exponent: float result outside exact arithmetic
deriving DecidableEq, Repr

/-- Tokens of the restricted fragment. -/
inductive Tok
  | intTok (n : Nat)
  | floatTok (q : ℚ)
  | plusT | minusT | starT | slashT | dstarT | dslashT
  | lparT | rparT
  | dotT        -- a lone '.', only ever a parse error here
  | ellT        -- '...'
deriving DecidableEq, Repr

/-- The rational denoted by `ipart.fpart`. -/
def mkFloat (ipart fpart : List Char) : ℚ :=
  ((digitsVal ipart * 10 ^ fpart.length + digitsVal fpart : ℕ) : ℚ) /
    ((10 ^ fpart.length : ℕ) : ℚ)

/-- A decimal integer literal is valid unless it has leading zeros
(`0`, `00`, ... are allowed; `077` is a `SyntaxError`). -/
def intLitOk (ds : List Char) : Bool :=
  match ds with
  | [] => false
  | c :: rest => c.toNat != 48 || rest.all (fun d => d.toNat == 48)

/-- Prepend a token to a tokenizer result. -/
def consTok (t : Tok) : Except RunErr (List Tok) → Except RunErr (List Tok)
  | .ok ts => .ok (t :: ts)
  | .error e => .error e

/-- CPython-style tokenizer for the restricted character set. Number tokens
munch maximally (digits, then optionally `'.'` and more digits); `'.'`
followed by a digit starts a float, `'...'` is Ellipsis, any other `'.'` is a
lone dot the parser will reject. Fuel decreases every step and each step
consumes at least one character, so `length + 1` fuel always suffices. -/
def tokenizeF : Nat → List Char → Except RunErr (List Tok)
  | 0, _ => .error .malformed
  | _ + 1, [] => .ok []
  | f + 1, c :: cs =>
    if c.toNat == 32 then tokenizeF f cs
    else if c.toNat == 40 then consTok .lparT (tokenizeF f cs)
    else if c.toNat == 41 then consTok .rparT (tokenizeF f cs)
    else if c.toNat == 43 then consTok .plusT (tokenizeF f cs)
    else if c.toNat == 45 then consTok .minusT (tokenizeF f cs)
    else if c.toNat == 42 then
      match cs with
      | c2 :: cs2 =>
        if c2.toNat == 42 then consTok .dstarT (tokenizeF f cs2)
        else consTok .starT (tokenizeF f cs)
      | [] => consTok .starT (tokenizeF f cs)
    else if c.toNat == 47 then
      match cs with
      | c2 :: cs2 =>
        if c2.toNat == 47 then consTok .dslashT (tokenizeF f cs2)
        else consTok .slashT (tokenizeF f cs)
      | [] => consTok .slashT (tokenizeF f cs)
    else if c.toNat == 46 then
      match cs with
      | c2 :: cs2 =>
        if c2.isDigit then
          consTok (.floatTok (mkFloat [] ((c2 :: cs2).takeWhile Char.isDigit)))
            (tokenizeF f ((c2 :: cs2).dropWhile Char.isDigit))
        else if c2.toNat == 46 then
          match cs2 with
          | c3 :: cs3 =>
            if c3.toNat == 46 then consTok .ellT (tokenizeF f cs3)
            else consTok .dotT (tokenizeF f cs)
          | [] => consTok .dotT (tokenizeF f cs)
        else consTok .dotT (tokenizeF f cs)
      | [] => consTok .dotT (tokenizeF f cs)
    else if c.isDigit then
      let ds := (c :: cs).takeWhile Char.isDigit
      let rest := (c :: cs).dropWhile Char.isDigit
      match rest with
      | d :: rest2 =>
        if d.toNat == 46 then
          consTok (.floatTok (mkFloat ds (rest2.takeWhile Char.isDigit)))
            (tokenizeF f (rest2.dropWhile Char.isDigit))
        else if intLitOk ds then consTok (.intTok (digitsVal ds)) (tokenizeF f rest)
        else .error .malformed
      | [] => if intLitOk ds then consTok (.intTok (digitsVal ds)) (tokenizeF f [])
              else .error .malformed
    else .error .malformed

/-- Tokenize a whole string. -/
def tokenize (s : String) : Except RunErr (List Tok) :=
  tokenizeF (s.length + 1) s.toList

/-- Abstract syntax of the restricted fragment of Python expressions. -/
inductive PExpr
  | intLit (n : Nat)
  | floatLit (q : ℚ)
  | ellipsisLit
  | emptyTuple
  | pos (e : PExpr)
  | neg (e : PExpr)
  | add (a b : PExpr)
  | sub (a b : PExpr)
  | mul (a b : PExpr)
  | div (a b : PExpr)
  | floorDiv (a b : PExpr)
  | pow (a b : PExpr)
  | call0 (f : PExpr)
  | call1 (f : PExpr) (a : PExpr)
deriving DecidableEq, Repr

mutual

/-- `expr := term (('+'|'-') term)*`, left-associative. -/
def pExpr : Nat → List Tok → Except RunErr (PExpr × List Tok)
  | 0, _ => .error .malformed
  | f + 1, ts =>
    match pTerm f ts with
    | .error e => .error e
    | .ok (t, ts1) => pExprL f t ts1

/-- The `(('+'|'-') term)*` loop. -/
def pExprL : Nat → PExpr → List Tok → Except RunErr (PExpr × List Tok)
  | 0, _, _ => .error .malformed
  | f + 1, acc, .plusT :: ts =>
    match pTerm f ts with
    | .error e => .error e
    | .ok (t, ts1) => pExprL f (.add acc t) ts1
  | f + 1, acc, .minusT :: ts =>
    match pTerm f ts with
    | .error e => .error e
    | .ok (t, ts1) => pExprL f (.sub acc t) ts1
  | _ + 1, acc, ts => .ok (acc, ts)

/-- `term := factor (('*'|'/'|'//') factor)*`, left-associative. -/
def pTerm : Nat → List Tok → Except RunErr (PExpr × List Tok)
  | 0, _ => .error .malformed
  | f + 1, ts =>
    match pFactor f ts with
    | .error e => .error e
    | .ok (t, ts1) => pTermL f t ts1

/-- The `(('*'|'/'|'//') factor)*` loop. -/
def pTermL : Nat → PExpr → List Tok → Except RunErr (PExpr × List Tok)
  | 0, _, _ => .error .malformed
  | f + 1, acc, .starT :: ts =>
    match pFactor f ts with
    | .error e => .error e
    | .ok (t, ts1) => pTermL f (.mul acc t) ts1
  | f + 1, acc, .slashT :: ts =>
    match pFactor f ts with
    | .error e => .error e
    | .ok (t, ts1) => pTermL f (.div acc t) ts1
  | f + 1, acc, .dslashT :: ts =>
    match pFactor f ts with
    | .error e => .error e
    | .ok (t, ts1) => pTermL f (.floorDiv acc t) ts1
  | _ + 1, acc, ts => .ok (acc, ts)

/-- `factor := ('+'|'-') factor | power` (Python `u_expr`). -/
def pFactor : Nat → List Tok → Except RunErr (PExpr × List Tok)
  | 0, _ => .error .malformed
  | f + 1, .plusT :: ts =>
    match pFactor f ts with
    | .error e => .error e
    | .ok (t, ts1) => .ok (.pos t, ts1)
  | f + 1, .minusT :: ts =>
    match pFactor f ts with
    | .error e => .error e
    | .ok (t, ts1) => .ok (.neg t, ts1)
  | f + 1, ts => pPower f ts

/-- `power := primary ['**' factor]`: right operand at unary level, so `**`
is right-associative and `2**-2` parses. -/
def pPower : Nat → List Tok → Except RunErr (PExpr × List Tok)
  | 0, _ => .error .malformed
  | f + 1, ts =>
    match pPrimary f ts with
    | .error e => .error e
    | .ok (b, ts1) =>
      match ts1 with
      | .dstarT :: ts2 =>
        match pFactor f ts2 with
        | .error e => .error e
        | .ok (e, ts3) => .ok (.pow b e, ts3)
      | _ => .ok (b, ts1)

/-- `primary := atom trailer*` where the only trailer in this character set
is a call `'(' [expr] ')'`. -/
def pPrimary : Nat → List Tok → Except RunErr (PExpr × List Tok)
  | 0, _ => .error .malformed
  | f + 1, ts =>
    match pAtom f ts with
    | .error e => .error e
    | .ok (a, ts1) => pTrailer f a ts1

/-- Zero or more call trailers. -/
def pTrailer : Nat → PExpr → List Tok → Except RunErr (PExpr × List Tok)
  | 0, _, _ => .error .malformed
  | f + 1, a, .lparT :: .rparT :: ts => pTrailer f (.call0 a) ts
  | f + 1, a, .lparT :: ts =>
    match pExpr f ts with
    | .error e => .error e
    | .ok (e, ts1) =>
      match ts1 with
      | .rparT :: ts2 => pTrailer f (.call1 a e) ts2
      | _ => .error .malformed
  | _ + 1, a, ts => .ok (a, ts)

/-- `atom := NUMBER | '...' | '()' | '(' expr ')'`. -/
def pAtom : Nat → List Tok → Except RunErr (PExpr × List Tok)
  | 0, _ => .error .malformed
  | _ + 1, .intTok n :: ts => .ok (.intLit n, ts)
  | _ + 1, .floatTok q :: ts => .ok (.floatLit q, ts)
  | _ + 1, .ellT :: ts => .ok (.ellipsisLit, ts)
  | _ + 1, .lparT :: .rparT :: ts => .ok (.emptyTuple, ts)
  | f + 1, .lparT :: ts =>
    match pExpr f ts with
    | .error e => .error e
    | .ok (e, ts1) =>
      match ts1 with
      | .rparT :: ts2 => .ok (e, ts2)
      | _ => .error .malformed
  | _ + 1, _ => .error .malformed

end

/-- Parse a full token list as one expression followed by end of input
(`eval` compiles in expression mode). The fuel bound is generous: the parser
moves down at most a constant number of levels before consuming a token. -/
def parseAll (ts : List Tok) : Except RunErr PExpr :=
  match pExpr (16 * (ts.length + 1)) ts with
  | .error e => .error e
  | .ok (e, []) => .ok e
  | .ok (_, _ :: _) => .error .malformed

/-- Tokenize and parse a string. -/
def parseStr (s : String) : Except RunErr PExpr :=
  match tokenize s with
  | .error e => .error e
  | .ok ts => parseAll ts

/-- Values `eval` can produce on this fragment. -/
inductive PyVal
  | int (n : Int)
  | float (q : ℚ)
  | tuple0      -- the empty tuple ()
  | ellipsisV   -- Ellipsis
deriving DecidableEq, Repr

/-- Python `+`: ints stay int, floats contaminate, `() + ()` concatenates,
everything else is a `TypeError`. -/
def pyAdd : PyVal → PyVal → Except RunErr PyVal
  | .int a, .int b => .ok (.int (a + b))
  | .int a, .float b => .ok (.float ((a : ℚ) + b))
  | .float a, .int b => .ok (.float (a + (b : ℚ)))
  | .float a, .float b => .ok (.float (a + b))
  | .tuple0, .tuple0 => .ok .tuple0
  | _, _ => .error .typeErr

/-- Python binary `-`. -/
def pySub : PyVal → PyVal → Except RunErr PyVal
  | .int a, .int b => .ok (.int (a - b))
  | .int a, .float b => .ok (.float ((a : ℚ) - b))
  | .float a, .int b => .ok (.float (a - (b : ℚ)))
  | .float a, .float b => .ok (.float (a - b))
  | _, _ => .error .typeErr

/-- Python `*`: note `() * n = n * () = ()` (sequence repetition). -/
def pyMul : PyVal → PyVal → Except RunErr PyVal
  | .int a, .int b => .ok (.int (a * b))
  | .int a, .float b => .ok (.float ((a : ℚ) * b))
  | .float a, .int b => .ok (.float (a * (b : ℚ)))
  | .float a, .float b => .ok (.float (a * b))
  | .tuple0, .int _ => .ok .tuple0
  | .int _, .tuple0 => .ok .tuple0
  | _, _ => .error .typeErr

/-- Numeric view of a value, for the two divisions. -/
def asRat : PyVal → Option ℚ
  | .int n => some (n : ℚ)
  | .float q => some q
  | _ => none

/-- Python `/`: true division, always float, `ZeroDivisionError` on zero. -/
def pyDiv : PyVal → PyVal → Except RunErr PyVal
  | a, b =>
    match asRat a, asRat b with
    | some x, some y => if y == 0 then .error .zeroDiv else .ok (.float (x / y))
    | _, _ => .error .typeErr

/-- Python `//`: floor division; int on two ints, float otherwise. -/
def pyFloorDiv : PyVal → PyVal → Except RunErr PyVal
  | .int a, .int b => if b == 0 then .error .zeroDiv else .ok (.int (Int.fdiv a b))
  | a, b =>
    match asRat a, asRat b with
    | some x, some y =>
      if y == 0 then .error .zeroDiv else .ok (.float ((Rat.floor (x / y) : ℤ) : ℚ))
    | _, _ => .error .typeErr

/-- A power with a float operand: a float result when the exponent is
integral (`ZeroDivisionError` for a zero base and negative exponent); a
non-integral exponent gives an IEEE float (or a complex number for a negative
base) outside the exact-arithmetic model, marked `floatPow`. -/
def powFloat (a q : ℚ) : Except RunErr PyVal :=
  if q.den == 1 then
    if a == 0 && q.num < 0 then .error .zeroDiv else .ok (.float (a ^ q.num))
  else .error .floatPow

/-- Python `**`: int on two ints with nonnegative exponent, float on a
negative exponent, `ZeroDivisionError` for `0 ** negative`. -/
def pyPow : PyVal → PyVal → Except RunErr PyVal
  | .int a, .int e =>
    if 0 ≤ e then .ok (.int (a ^ e.toNat))
    else if a == 0 then .error .zeroDiv
    else .ok (.float ((a : ℚ) ^ e))
  | .int a, .float q => powFloat (a : ℚ) q
  | .float a, .int e =>
    if a == 0 && e < 0 then .error .zeroDiv else .ok (.float (a ^ e))
  | .float a, .float q => powFloat a q
  | _, _ => .error .typeErr

/-- Python unary `-`. -/
def pyNeg : PyVal → Except RunErr PyVal
  | .int a => .ok (.int (-a))
  | .float a => .ok (.float (-a))
  | _ => .error .typeErr

/-- Python unary `+`. -/
def pyPos : PyVal → Except RunErr PyVal
  | .int a => .ok (.int a)
  | .float a => .ok (.float a)
  | _ => .error .typeErr

/-- Evaluate an expression tree with Python's left-to-right evaluation
order. A call evaluates its callee and argument first; no constructible
value is callable, so every call then raises `TypeError`. -/
def evalE : PExpr → Except RunErr PyVal
  | .intLit n => .ok (.int n)
  | .floatLit q => .ok (.float q)
  | .ellipsisLit => .ok .ellipsisV
  | .emptyTuple => .ok .tuple0
  | .pos e =>
    match evalE e with
    | .error er => .error er
    | .ok v => pyPos v
  | .neg e =>
    match evalE e with
    | .error er => .error er
    | .ok v => pyNeg v
  | .add a b =>
    match evalE a with
    | .error er => .error er
    | .ok x =>
      match evalE b with
      | .error er => .error er
      | .ok y => pyAdd x y
  | .sub a b =>
    match evalE a with
    | .error er => .error er
    | .ok x =>
      match evalE b with
      | .error er => .error er
      | .ok y => pySub x y
  | .mul a b =>
    match evalE a with
    | .error er => .error er
    | .ok x =>
      match evalE b with
      | .error er => .error er
      | .ok y => pyMul x y
  | .div a b =>
    match evalE a with
    | .error er => .error er
    | .ok x =>
      match evalE b with
      | .error er => .error er
      | .ok y => pyDiv x y
  | .floorDiv a b =>
    match evalE a with
    | .error er => .error er
    | .ok x =>
      match evalE b with
      | .error er => .error er
      | .ok y => pyFloorDiv x y
  | .pow a b =>
    match evalE a with
    | .error er => .error er
    | .ok x =>
      match evalE b with
      | .error er => .error er
      | .ok y => pyPow x y
  | .call0 f =>
    match evalE f with
    | .error er => .error er
    | .ok _ => .error .typeErr
  | .call1 f a =>
    match evalE f with
    | .error er => .error er
    | .ok _ =>
      match evalE a with
      | .error er => .error er
      | .ok _ => .error .typeErr

/-- `eval(expression, {"__builtins__": {}})` on the restricted fragment. -/
def rawEval (s : String) : Except RunErr PyVal :=
  match parseStr s with
  | .error e => .error e
  | .ok e => evalE e

/-- Outcomes of `Calculator.calculate`, by the exception that escapes it. -/
inductive CalcErr
  | invalidChars       -- ValueError "Invalid characters in expression"
  | invalidExpression  -- ValueError "Invalid expression"
  | uncaughtType       -- TypeError: not caught by the except clause
  | floatPowModel      -- model marker, see RunErr.floatPow
deriving DecidableEq, Repr

/-- `Calculator.calculate`: the character filter, then `eval`;
`SyntaxError`, `NameError` (unreachable: no identifier characters pass the
filter) and `ZeroDivisionError` all collapse into
`ValueError("Invalid expression")`; a `TypeError` escapes uncaught. -/
def Calculator.calculate (expression : String) : Except CalcErr PyVal :=
  if charsValid expression then
    match rawEval expression with
    | .ok v => .ok v
    | .error .malformed => .error .invalidExpression
    | .error .zeroDiv => .error .invalidExpression
    | .error .typeErr => .error .uncaughtType
    | .error .floatPow => .error .floatPowModel
  else .error .invalidChars

/-! ## Dictionary and list lemmas -/

/-- Unfolding of `rget` on a cons cell. -/
theorem rget_cons (k0 : String) (v0 : Scalar) (r : Record) (k : String) :
    rget ((k0, v0) :: r) k = if k0 == k then some v0 else rget r k := rfl

/-- `rget` hits a matching head. -/
theorem rget_cons_self (k : String) (v0 : Scalar) (r : Record) :
    rget ((k, v0) :: r) k = some v0 := by
  rw [rget_cons, if_pos (beq_iff_eq.mpr rfl)]

/-- `rget` skips a non-matching head. -/
theorem rget_cons_ne {k0 k : String} (h : k0 ≠ k) (v0 : Scalar) (r : Record) :
    rget ((k0, v0) :: r) k = rget r k := by
  rw [rget_cons, if_neg (fun hc => h (beq_iff_eq.mp hc))]

/-- `setPair` overwrites a pair with the target key. -/
theorem setPair_self (k : String) (v v0 : Scalar) :
    setPair k v (k, v0) = (k, v) := by
  unfold setPair
  exact if_pos (beq_iff_eq.mpr rfl)

/-- `setPair` keeps a pair with another key. -/
theorem setPair_ne {k0 k' : String} (h : k0 ≠ k') (v v0 : Scalar) :
    setPair k' v (k0, v0) = (k0, v0) := by
  unfold setPair
  exact if_neg (fun hc => h (beq_iff_eq.mp hc))

/-- Unfolding of `hasKey` on a cons cell. -/
theorem hasKey_cons (k0 : String) (v0 : Scalar) (r : Record) (k : String) :
    hasKey ((k0, v0) :: r) k = ((k0 == k) || hasKey r k) := rfl

/-- Overwriting key `k'` in place does not move or change any other key. -/
theorem rget_map_set_of_ne (r : Record) (k' k : String) (v : Scalar)
    (h : k' ≠ k) :
    rget (r.map (setPair k' v)) k = rget r k := by
  induction r with
  | nil => rfl
  | cons p r ih =>
    obtain ⟨k0, v0⟩ := p
    rw [List.map_cons]
    by_cases hk : k0 = k'
    · subst hk
      rw [setPair_self, rget_cons_ne h, ih, rget_cons_ne h]
    · rw [setPair_ne hk]
      by_cases hk0 : k0 = k
      · subst hk0
        rw [rget_cons_self, rget_cons_self]
      · rw [rget_cons_ne hk0, ih, rget_cons_ne hk0]

/-- Appending a fresh key does not change any other key's lookup. -/
theorem rget_append_of_ne (r : Record) (k' k : String) (v : Scalar)
    (h : k' ≠ k) :
    rget (r ++ [(k', v)]) k = rget r k := by
  induction r with
  | nil =>
    rw [List.nil_append, rget_cons_ne h]
  | cons p r ih =>
    obtain ⟨k0, v0⟩ := p
    rw [List.cons_append]
    by_cases hk0 : k0 = k
    · subst hk0
      rw [rget_cons_self, rget_cons_self]
    · rw [rget_cons_ne hk0, ih, rget_cons_ne hk0]

/-- `dictSet` at key `k'` leaves every other key's lookup unchanged. -/
theorem rget_dictSet_of_ne (r : Record) (k' k : String) (v : Scalar)
    (h : k' ≠ k) :
    rget (dictSet r k' v) k = rget r k := by
  unfold dictSet
  by_cases hk : hasKey r k' = true
  · rw [if_pos hk]
    exact rget_map_set_of_ne r k' k v h
  · rw [if_neg hk]
    exact rget_append_of_ne r k' k v h

/-- In-place overwrite hits the key when it is present. -/
theorem rget_map_set_self (r : Record) (k : String) (v : Scalar)
    (h : hasKey r k = true) :
    rget (r.map (setPair k v)) k = some v := by
  induction r with
  | nil => exact Bool.noConfusion h
  | cons p r ih =>
    obtain ⟨k0, v0⟩ := p
    rw [List.map_cons]
    by_cases hk0 : k0 = k
    · subst hk0
      rw [setPair_self, rget_cons_self]
    · rw [setPair_ne hk0, rget_cons_ne hk0]
      apply ih
      rw [hasKey_cons] at h
      rcases Bool.or_eq_true_iff.mp h with hb | hb
      · exact absurd (beq_iff_eq.mp hb) hk0
      · exact hb

/-- Appending a missing key makes it found, with the appended value. -/
theorem rget_append_self (r : Record) (k : String) (v : Scalar)
    (h : hasKey r k = false) :
    rget (r ++ [(k, v)]) k = some v := by
  induction r with
  | nil => rw [List.nil_append, rget_cons_self]
  | cons p r ih =>
    obtain ⟨k0, v0⟩ := p
    rw [hasKey_cons, Bool.or_eq_false_iff] at h
    rw [List.cons_append, rget_cons_ne (ne_of_beq_false h.1), ih h.2]

/-- `dictSet` makes its key map to its value. -/
theorem rget_dictSet_self (r : Record) (k : String) (v : Scalar) :
    rget (dictSet r k v) k = some v := by
  unfold dictSet
  by_cases hk : hasKey r k = true
  · rw [if_pos hk]
    exact rget_map_set_self r k v hk
  · rw [if_neg hk]
    apply rget_append_self
    cases hc : hasKey r k
    · rfl
    · exact absurd hc hk

/-- `dict.update` leaves every key the patch does not mention unchanged. -/
theorem rget_dictUpdate_of_not_mem (u : Record) :
    ∀ (r : Record) (k : String), (∀ p ∈ u, p.1 ≠ k) →
      rget (dictUpdate r u) k = rget r k := by
  induction u with
  | nil => intro r k _; rfl
  | cons p u ih =>
    intro r k h
    obtain ⟨k1, v1⟩ := p
    have h1 : k1 ≠ k := h (k1, v1) (List.mem_cons_self _ _)
    have h2 : ∀ q ∈ u, q.1 ≠ k := fun q hq => h q (List.mem_cons_of_mem _ hq)
    calc rget (dictUpdate r ((k1, v1) :: u)) k
        = rget (dictUpdate (dictSet r k1 v1) u) k := rfl
      _ = rget (dictSet r k1 v1) k := ih (dictSet r k1 v1) k h2
      _ = rget r k := rget_dictSet_of_ne r k1 k v1 h1

/-- A key with no binding in a dict literal is mentioned by none of its
pairs. -/
theorem lastBind_eq_none (u : Record) (k : String) :
    lastBind u k = none → ∀ p ∈ u, p.1 ≠ k := by
  induction u with
  | nil => intro _ p hp; cases hp
  | cons q u ih =>
    intro h p hp
    obtain ⟨k0, v0⟩ := q
    cases hl : lastBind u k with
    | some v =>
      simp only [lastBind, hl] at h
      exact Option.noConfusion h
    | none =>
      simp only [lastBind, hl] at h
      rcases List.mem_cons.mp hp with rfl | hp'
      · intro he
        rw [if_pos (beq_iff_eq.mpr he)] at h
        exact Option.noConfusion h
      · exact ih hl p hp'

/-- `dict.update` leaves a mentioned key at its last value in the patch. -/
theorem rget_dictUpdate_lastBind (u : Record) :
    ∀ (r : Record) (k : String) (v : Scalar), lastBind u k = some v →
      rget (dictUpdate r u) k = some v := by
  induction u with
  | nil => intro r k v h; exact Option.noConfusion h
  | cons p u ih =>
    intro r k v h
    obtain ⟨k1, v1⟩ := p
    cases hl : lastBind u k with
    | some v' =>
      simp only [lastBind, hl] at h
      have hv : v' = v := by injection h
      rw [← hv]
      exact ih (dictSet r k1 v1) k v' hl
    | none =>
      simp only [lastBind, hl] at h
      by_cases hk : k1 = k
      · rw [if_pos (beq_iff_eq.mpr hk)] at h
        have hv : v1 = v := by injection h
        subst hk
        subst hv
        calc rget (dictUpdate r ((k1, v1) :: u)) k1
            = rget (dictUpdate (dictSet r k1 v1) u) k1 := rfl
          _ = rget (dictSet r k1 v1) k1 :=
              rget_dictUpdate_of_not_mem u (dictSet r k1 v1) k1
                (lastBind_eq_none u k1 hl)
          _ = some v1 := rget_dictSet_self r k1 v1
      · rw [if_neg (fun hc => hk (beq_iff_eq.mp hc))] at h
        exact Option.noConfusion h

/-- Unfolding of the update loop on a matching head. -/
theorem updateFirst_pos {hd : Record} {tl : Collection} {id : Int}
    {u : Record} (hm : idMatches hd id = true) :
    updateFirst (hd :: tl) id u = (true, dictUpdate hd u :: tl) := by
  show (if idMatches hd id then (true, dictUpdate hd u :: tl)
        else ((updateFirst tl id u).1, hd :: (updateFirst tl id u).2))
      = (true, dictUpdate hd u :: tl)
  rw [if_pos hm]

/-- Unfolding of the update loop on a non-matching head. -/
theorem updateFirst_neg {hd : Record} {tl : Collection} {id : Int}
    {u : Record} (hm : ¬ idMatches hd id = true) :
    updateFirst (hd :: tl) id u
      = ((updateFirst tl id u).1, hd :: (updateFirst tl id u).2) := by
  show (if idMatches hd id then (true, dictUpdate hd u :: tl)
        else ((updateFirst tl id u).1, hd :: (updateFirst tl id u).2))
      = ((updateFirst tl id u).1, hd :: (updateFirst tl id u).2)
  rw [if_neg hm]

/-- A record of the updated collection is either the corresponding original
record untouched, or the matched record merged with the patch. -/
theorem updateFirst_get_cases :
    ∀ (l : Collection) (id : Int) (u : Record) (j : Nat) (r r' : Record),
      l[j]? = some r → ((updateFirst l id u).2)[j]? = some r' →
      r' = r ∨ r' = dictUpdate r u := by
  intro l id u
  induction l with
  | nil =>
    intro j r r' h1 _
    rw [List.getElem?_nil] at h1
    exact Option.noConfusion h1
  | cons hd tl ih =>
    intro j r r' h1 h2
    by_cases hm : idMatches hd id = true
    · rw [updateFirst_pos hm] at h2
      dsimp only at h2
      cases j with
      | zero =>
        rw [List.getElem?_cons_zero] at h1 h2
        have e1 : hd = r := by injection h1
        have e2 : dictUpdate hd u = r' := by injection h2
        subst e1
        subst e2
        exact Or.inr rfl
      | succ n =>
        rw [List.getElem?_cons_succ] at h1 h2
        rw [h1] at h2
        have e2 : r = r' := by injection h2
        exact Or.inl e2.symm
    · rw [updateFirst_neg hm] at h2
      dsimp only at h2
      cases j with
      | zero =>
        rw [List.getElem?_cons_zero] at h1 h2
        have e1 : hd = r := by injection h1
        have e2 : hd = r' := by injection h2
        subst e1
        exact Or.inl e2.symm
      | succ n =>
        rw [List.getElem?_cons_succ] at h1 h2
        exact ih n r r' h1 h2

/-- When no record matches, the update loop reports `false` and returns the
collection unchanged. -/
theorem updateFirst_of_no_match :
    ∀ (c : Collection) (id : Int) (u : Record),
      (∀ r ∈ c, idMatches r id = false) → updateFirst c id u = (false, c) := by
  intro c id u
  induction c with
  | nil => intro _; rfl
  | cons hd tl ih =>
    intro h
    have hm : idMatches hd id = false := h hd (List.mem_cons_self _ _)
    have ht : updateFirst tl id u = (false, tl) :=
      ih (fun r hr => h r (List.mem_cons_of_mem _ hr))
    rw [updateFirst_neg (fun hc => Bool.noConfusion (hm ▸ hc)), ht]

/-- A filter strictly shortens a list exactly when some element fails the
predicate. -/
theorem length_filter_lt_iff {α : Type} (p : α → Bool) (l : List α) :
    (l.filter p).length < l.length ↔ ∃ a ∈ l, p a = false := by
  induction l with
  | nil => simp
  | cons hd tl ih =>
    cases h : p hd
    · constructor
      · intro _
        exact ⟨hd, List.mem_cons_self _ _, h⟩
      · intro _
        calc (List.filter p (hd :: tl)).length
            = (List.filter p tl).length := by
              rw [List.filter_cons, h, if_neg (fun hc => Bool.noConfusion hc)]
          _ ≤ tl.length := List.length_filter_le p tl
          _ < (hd :: tl).length := by
              rw [List.length_cons]
              exact Nat.lt_succ_of_le (Nat.le_refl _)
    · rw [List.filter_cons, h, if_pos rfl]
      simp only [List.length_cons, Nat.succ_lt_succ_iff]
      rw [ih]
      constructor
      · rintro ⟨a, ha, hpa⟩
        exact ⟨a, List.mem_cons_of_mem _ ha, hpa⟩
      · rintro ⟨a, ha, hpa⟩
        rcases List.mem_cons.mp ha with rfl | ha'
        · rw [h] at hpa
          exact Bool.noConfusion hpa
        · exact ⟨a, ha', hpa⟩

/-- A filter that keeps every element is the identity. -/
theorem filter_eq_self_of_all {α : Type} (p : α → Bool) (l : List α)
    (h : ∀ a ∈ l, p a = true) : l.filter p = l := by
  induction l with
  | nil => rfl
  | cons hd tl ih =>
    rw [List.filter_cons, h hd (List.mem_cons_self _ _), if_pos rfl]
    rw [ih (fun a ha => h a (List.mem_cons_of_mem _ ha))]

/-- Nothing satisfying `f` survives filtering by its negation. -/
theorem find?_filter_not {α : Type} (f : α → Bool) (l : List α) :
    (l.filter (fun a => !f a)).find? f = none := by
  induction l with
  | nil => rfl
  | cons hd tl ih =>
    cases h : f hd
    · rw [List.filter_cons]
      have hb : (!f hd) = true := by rw [h]; rfl
      rw [hb, if_pos rfl]
      rw [List.find?_cons_of_neg _
        (by intro hc; rw [h] at hc; exact Bool.noConfusion hc)]
      exact ih
    · rw [List.filter_cons]
      have hb : (!f hd) = false := by rw [h]; rfl
      rw [hb, if_neg (fun hc => Bool.noConfusion hc)]
      exact ih

/-- The empty needle occurs in every haystack. -/
theorem hasSub_nil (h : List Char) : hasSub [] h = true := by
  cases h with
  | nil => rfl
  | cons c cs => rfl

/-- The empty keyword matches every value. -/
theorem valueMatches_empty (v : Scalar) : valueMatches "" v = true := by
  have h : (lowerStr "").toList = ([] : List Char) := by decide
  rw [valueMatches, h]
  exact hasSub_nil _

/-- Every character passing the filter has a code point below 65; in
particular no ASCII or Unicode letter and no underscore (code point 95)
passes, so no identifier, attribute name or keyword can appear in an
accepted expression. -/
theorem allowedChar_lt_65 (c : Char) (h : allowedChar c = true) :
    c.toNat < 65 := by
  simp only [allowedChar, Bool.or_eq_true, Bool.and_eq_true,
    decide_eq_true_eq, beq_iff_eq] at h
  rcases h with
    ((((((((⟨h1, h2⟩ | h) | h) | h) | h) | h) | h) | h) | h) <;> omega

/-- Decidable equality of `Except` results, used to evaluate the claims on
concrete inputs. -/
instance exceptDecEq {ε α : Type} [DecidableEq ε] [DecidableEq α] :
    DecidableEq (Except ε α)
  | .ok a, .ok b =>
    if h : a = b then .isTrue (by rw [h])
    else .isFalse (fun hc => h (by injection hc))
  | .error e, .error f =>
    if h : e = f then .isTrue (by rw [h])
    else .isFalse (fun hc => h (by injection hc))
  | .ok _, .error _ => .isFalse (fun hc => Except.noConfusion hc)
  | .error _, .ok _ => .isFalse (fun hc => Except.noConfusion hc)

/-! ## Claim theorems -/

/-- Claim C1, counterexample: a patch that contains an `id` key does change
the matched record's `id`. Updating the record `{id: 1}` with the patch
`{id: 2}` stores `{id: 2}` (and reports a match), so `update` does not
protect the `id` field. -/
theorem C1_counterexample :
    (DataManager.update_item ⟨[[("id", Scalar.int 1)]], FileContent.absent⟩ 1
        [("id", Scalar.int 2)]).1.data = [[("id", Scalar.int 2)]] ∧
    (DataManager.update_item ⟨[[("id", Scalar.int 1)]], FileContent.absent⟩ 1
        [("id", Scalar.int 2)]).2 = true := by
  exact ⟨by decide, by decide⟩

/-- Claim C1, amended: `update(id, patch)` leaves every field not named in
the patch unchanged in every record (matched or not), and a field that is
named in the patch — including `id` — ends at the patch's (last) value for it
in the matched record; untouched records keep all their fields. -/
theorem C1_corrected :
    ∀ (m : DataManager) (id : Int) (u : Record) (j : Nat) (r r' : Record),
      (m.data)[j]? = some r → (((m.update_item id u).1).data)[j]? = some r' →
      (∀ k, (∀ p ∈ u, p.1 ≠ k) → rget r' k = rget r k) ∧
      (∀ k v, lastBind u k = some v → r' = r ∨ rget r' k = some v) := by
  intro m id u j r r' h1 h2
  have hcases : r' = r ∨ r' = dictUpdate r u := by
    by_cases hb : (updateFirst m.data id u).1 = true
    · have he : m.update_item id u
          = (DataManager.save_data ⟨(updateFirst m.data id u).2, m.file⟩, true) := by
        unfold DataManager.update_item
        rw [if_pos hb]
      rw [he] at h2
      dsimp only [DataManager.save_data] at h2
      exact updateFirst_get_cases m.data id u j r r' h1 h2
    · have he : m.update_item id u = (m, false) := by
        unfold DataManager.update_item
        rw [if_neg hb]
      rw [he] at h2
      dsimp only at h2
      rw [h1] at h2
      have h3 : r = r' := by injection h2
      exact Or.inl h3.symm
  rcases hcases with he | he
  · subst he
    exact ⟨fun k _ => rfl, fun k v _ => Or.inl rfl⟩
  · subst he
    exact ⟨fun k hk => rget_dictUpdate_of_not_mem u r k hk,
           fun k v hv => Or.inr (rget_dictUpdate_lastBind u r k v hv)⟩

/-- Claim C1, witness: the amended theorem applied to the collection
`[{id: 1}]`, id `1` and patch `{id: 2}`. -/
theorem C1_witness :
    ([("id", Scalar.int 2)] : Record) = [("id", Scalar.int 1)] ∨
    rget [("id", Scalar.int 2)] "id" = some (Scalar.int 2) :=
  (C1_corrected ⟨[[("id", Scalar.int 1)]], FileContent.absent⟩ 1
      [("id", Scalar.int 2)] 0 [("id", Scalar.int 1)] [("id", Scalar.int 2)]
      (by decide) (by decide)).2 "id" (Scalar.int 2) (by decide)

/-- Claim C2, counterexample: `"2**3"` passes the character filter, parses
as an exponentiation node, and evaluates to 8 — a capability beyond the four
binary arithmetic operators. -/
theorem C2_counterexample :
    Calculator.calculate "2**3" = .ok (PyVal.int 8) ∧
    parseStr "2**3" = .ok (PExpr.pow (PExpr.intLit 2) (PExpr.intLit 3)) := by
  exact ⟨rfl, rfl⟩

/-- Claim C2, amended: every accepted character has code point below 65, so
no letter or underscore (hence no identifier, attribute access, or dynamic
name resolution) is expressible; but beyond the four operators the accepted
fragment also contains exponentiation (`"7//2"`-style floor division and
`"2**3"`-style powers evaluate), and call syntax parses, always failing at
run time with an uncaught `TypeError` since no constructible value is
callable. -/
theorem C2_corrected :
    (∀ s : String, charsValid s = true → ∀ c ∈ s.toList, c.toNat < 65) ∧
    Calculator.calculate "7//2" = .ok (PyVal.int 3) ∧
    Calculator.calculate "2(3)" = .error CalcErr.uncaughtType := by
  refine ⟨?_, rfl, rfl⟩
  intro s h c hc
  exact allowedChar_lt_65 c (List.all_eq_true.mp h c hc)

/-- Claim C2, witness: the amended theorem applied to the accepted
expression `"7//2"` and its character `'7'`. -/
theorem C2_witness : ('7' : Char).toNat < 65 :=
  C2_corrected.1 "7//2" (by decide) '7' (by decide)

/-- Claim C3, counterexample: dividing by zero produces the very same error
value as malformed syntax (`ValueError("Invalid expression")`); there is no
distinct division-by-zero error. -/
theorem C3_counterexample :
    Calculator.calculate "1 / 0" = Calculator.calculate "2 +" ∧
    Calculator.calculate "1 / 0" = .error CalcErr.invalidExpression := by
  exact ⟨rfl, rfl⟩

/-- Claim C3, amended: every expression whose evaluation raises
`ZeroDivisionError` fails with the same `ValueError("Invalid expression")`
that malformed syntax produces — the `except` clause collapses
`ZeroDivisionError` into it, so no distinct `DivisionByZeroError` exists. -/
theorem C3_corrected :
    (∀ s : String, charsValid s = true → rawEval s = .error RunErr.zeroDiv →
      Calculator.calculate s = .error CalcErr.invalidExpression) ∧
    Calculator.calculate "1 / 0" = .error CalcErr.invalidExpression ∧
    Calculator.calculate "(2 + 3) / (2 - 2)" = .error CalcErr.invalidExpression := by
  refine ⟨?_, rfl, rfl⟩
  intro s h1 h2
  unfold Calculator.calculate
  rw [if_pos h1, h2]

/-- Claim C3, witness: the amended theorem applied to `"8 / 0"`. -/
theorem C3_witness :
    Calculator.calculate "8 / 0" = .error CalcErr.invalidExpression :=
  C3_corrected.1 "8 / 0" (by decide) rfl

/-- Claim C4, counterexample: `"2 ++ 2"` does not fail at all — Python
parses it as `2 + (+2)` and the calculator returns 4. -/
theorem C4_counterexample :
    Calculator.calculate "2 ++ 2" = .ok (PyVal.int 4) := rfl

/-- Claim C4, amended: an expression with a character outside the allowed
set is rejected before evaluation with the invalid-characters `ValueError`
(`"2 & 2"` among them), and every expression the parser rejects fails with
`ValueError("Invalid expression")` (`"2 +"`, `"(2"`, `"2 * * 2"` among
them); but `"2 ++ 2"` is well-formed — `++` is a plus followed by unary
plus — and returns 4. -/
theorem C4_corrected :
    (∀ s : String, charsValid s = false →
      Calculator.calculate s = .error CalcErr.invalidChars) ∧
    (∀ s : String, charsValid s = true → rawEval s = .error RunErr.malformed →
      Calculator.calculate s = .error CalcErr.invalidExpression) ∧
    Calculator.calculate "2 & 2" = .error CalcErr.invalidChars ∧
    Calculator.calculate "2 ++ 2" = .ok (PyVal.int 4) ∧
    Calculator.calculate "2 +" = .error CalcErr.invalidExpression ∧
    Calculator.calculate "(2" = .error CalcErr.invalidExpression ∧
    Calculator.calculate "2 * * 2" = .error CalcErr.invalidExpression := by
  refine ⟨?_, ?_, rfl, rfl, rfl, rfl, rfl⟩
  · intro s h
    unfold Calculator.calculate
    rw [if_neg (by intro hc; rw [h] at hc; exact Bool.noConfusion hc)]
  · intro s h1 h2
    unfold Calculator.calculate
    rw [if_pos h1, h2]

/-- Claim C4, witness: the amended theorem applied to `"2 @ 2"`, whose `'@'`
fails the character filter. -/
theorem C4_witness :
    Calculator.calculate "2 @ 2" = .error CalcErr.invalidChars :=
  C4_corrected.1 "2 @ 2" (by decide)

/-- Claim C5, counterexample: `"2 + 3 * 4"` evaluates to the Python int 14,
not the float 14.0 — `eval` keeps integer arithmetic in `int`, and the two
values are distinct Python objects (`print` shows `14`, not `14.0`). -/
theorem C5_counterexample :
    Calculator.calculate "2 + 3 * 4" = .ok (PyVal.int 14) ∧
    PyVal.int 14 ≠ PyVal.float 14 := by
  exact ⟨rfl, by decide⟩

/-- Claim C5, amended: evaluation follows standard precedence (`*`/`/` over
`+`/`-`, witnessed by the parse trees) and left-to-right associativity, and
returns the correct numeric values — but as Python ints when no true
division or float literal is involved (`14` and `20`, numerically equal to
`14.0` and `20.0`); true division always yields a float. -/
theorem C5_corrected :
    parseStr "2 + 3 * 4"
      = .ok (PExpr.add (PExpr.intLit 2) (PExpr.mul (PExpr.intLit 3) (PExpr.intLit 4))) ∧
    parseStr "(2 + 3) * 4"
      = .ok (PExpr.mul (PExpr.add (PExpr.intLit 2) (PExpr.intLit 3)) (PExpr.intLit 4)) ∧
    parseStr "2 - 3 - 4"
      = .ok (PExpr.sub (PExpr.sub (PExpr.intLit 2) (PExpr.intLit 3)) (PExpr.intLit 4)) ∧
    parseStr "8 / 4 / 2"
      = .ok (PExpr.div (PExpr.div (PExpr.intLit 8) (PExpr.intLit 4)) (PExpr.intLit 2)) ∧
    Calculator.calculate "2 + 3 * 4" = .ok (PyVal.int 14) ∧
    Calculator.calculate "(2 + 3) * 4" = .ok (PyVal.int 20) ∧
    Calculator.calculate "8 - 2 + 1" = .ok (PyVal.int 7) ∧
    Calculator.calculate "8 / 4 / 2" = .ok (PyVal.float 1) ∧
    Calculator.calculate "1 / 2" = .ok (PyVal.float (1 / 2)) := by
  refine ⟨rfl, rfl, rfl, rfl, rfl, rfl, rfl, ?_, rfl⟩
  have h : Calculator.calculate "8 / 4 / 2"
      = .ok (PyVal.float ((8 : ℚ) / 4 / 2)) := rfl
  have h2 : ((8 : ℚ) / 4 / 2) = 1 := by norm_num
  rw [h, h2]

/-- Claim C6: `load_data` returns the empty collection when the backing file
is absent (`FileNotFoundError` is caught) and a well-formed file parses to
its collection; but a malformed file makes it propagate `json.JSONDecodeError`
uncaught — there is no `PersistenceError` anywhere in the code. -/
theorem C6_code_bug :
    DataManager.load_data FileContent.absent = .ok [] ∧
    DataManager.load_data FileContent.malformed = .error LoadErr.jsonDecodeError ∧
    ∀ l : Collection, DataManager.load_data (FileContent.wellFormed l) = .ok l := by
  exact ⟨rfl, rfl, fun _ => rfl⟩

/-- Claim C7: `delete_item` returns true exactly when a record with the id
is present; afterwards `get_item` on that id always returns `None`; and on a
false return the manager (collection and backing file) is unchanged. -/
theorem C7_confirmed :
    ∀ (m : DataManager) (id : Int),
      ((m.delete_item id).2 = true ↔ ∃ r ∈ m.data, idMatches r id = true) ∧
      DataManager.get_item (m.delete_item id).1 id = none ∧
      ((m.delete_item id).2 = false → m.delete_item id = (m, false)) := by
  intro m id
  obtain ⟨d, fl⟩ := m
  by_cases hlt : ((d.filter (fun r => !idMatches r id)).length < d.length)
  · have he : DataManager.delete_item ⟨d, fl⟩ id
        = (DataManager.save_data ⟨d.filter (fun r => !idMatches r id), fl⟩, true) := by
      unfold DataManager.delete_item
      rw [if_pos hlt]
    refine ⟨?_, ?_, ?_⟩
    · rw [he]
      constructor
      · intro _
        obtain ⟨a, ha, hpa⟩ := (length_filter_lt_iff _ d).mp hlt
        refine ⟨a, ha, ?_⟩
        cases hb : idMatches a id
        · rw [hb] at hpa
          exact Bool.noConfusion hpa
        · rfl
      · intro _
        rfl
    · rw [he]
      show (d.filter (fun r => !idMatches r id)).find? (fun r => idMatches r id)
          = none
      exact find?_filter_not _ d
    · rw [he]
      intro h
      exact Bool.noConfusion h
  · have he : DataManager.delete_item ⟨d, fl⟩ id
        = (⟨d.filter (fun r => !idMatches r id), fl⟩, false) := by
      unfold DataManager.delete_item
      rw [if_neg hlt]
    have hall : ∀ r ∈ d, (!idMatches r id) = true := by
      intro r hr
      cases hb : idMatches r id
      · rfl
      · exact absurd ((length_filter_lt_iff _ d).mpr ⟨r, hr, by rw [hb]; rfl⟩) hlt
    have hfe : d.filter (fun r => !idMatches r id) = d :=
      filter_eq_self_of_all _ d hall
    refine ⟨?_, ?_, ?_⟩
    · rw [he]
      constructor
      · intro h
        exact absurd h (fun hc => Bool.noConfusion hc)
      · rintro ⟨a, ha, hpa⟩
        have hna := hall a ha
        rw [hpa] at hna
        exact Bool.noConfusion hna
    · rw [he]
      show (d.filter (fun r => !idMatches r id)).find? (fun r => idMatches r id)
          = none
      exact find?_filter_not _ d
    · intro _
      rw [he, hfe]

/-- Claim C7, witness: deleting id 1 from `[{id: 1}]` reports a removal. -/
theorem C7_witness :
    (DataManager.delete_item ⟨[[("id", Scalar.int 1)]], FileContent.absent⟩ 1).2
      = true :=
  (C7_confirmed ⟨[[("id", Scalar.int 1)]], FileContent.absent⟩ 1).1.mpr
    (by decide)

/-- Claim C8: the validators return the spec's witness values —
`"31-04-2024"` is not a date (April has 30 days), `"29-02-2024"` is (leap
year), `"a@b.c"` is not an email (one-letter TLD), `"12345"` is not a phone
(shorter than 10) — and all three are total boolean functions. -/
theorem C8_confirmed :
    Validator.validate_date "31-04-2024" false = false ∧
    Validator.validate_date "29-02-2024" false = true ∧
    Validator.validate_email "a@b.c" = false ∧
    Validator.validate_phone "12345" = false ∧
    (∀ s b, Validator.validate_date s b = true ∨ Validator.validate_date s b = false) ∧
    (∀ s, Validator.validate_email s = true ∨ Validator.validate_email s = false) ∧
    (∀ s, Validator.validate_phone s = true ∨ Validator.validate_phone s = false) := by
  refine ⟨by decide, by decide, by decide, by decide, ?_, ?_, ?_⟩
  · intro s b
    cases h : Validator.validate_date s b
    · exact Or.inr rfl
    · exact Or.inl rfl
  · intro s
    cases h : Validator.validate_email s
    · exact Or.inr rfl
    · exact Or.inl rfl
  · intro s
    cases h : Validator.validate_phone s
    · exact Or.inr rfl
    · exact Or.inl rfl

/-- Claim C9: when no record carries the id, `update_item` returns `False`
and the manager is exactly unchanged — in-memory collection and backing file
alike, since `save_data` is never reached on that path. -/
theorem C9_confirmed :
    ∀ (m : DataManager) (id : Int) (u : Record),
      (∀ r ∈ m.data, idMatches r id = false) →
      m.update_item id u = (m, false) := by
  intro m id u h
  have h' : updateFirst m.data id u = (false, m.data) :=
    updateFirst_of_no_match m.data id u h
  unfold DataManager.update_item
  rw [h']
  exact if_neg (fun hc => Bool.noConfusion hc)

/-- Claim C9, witness: updating the absent id 2 in `[{id: 1}]` changes
nothing and reports `False`. -/
theorem C9_witness :
    DataManager.update_item ⟨[[("id", Scalar.int 1)]], FileContent.absent⟩ 2
        [("x", Scalar.int 7)]
      = (⟨[[("id", Scalar.int 1)]], FileContent.absent⟩, false) :=
  C9_confirmed ⟨[[("id", Scalar.int 1)]], FileContent.absent⟩ 2
    [("x", Scalar.int 7)] (by decide)

/-- Claim C10: searching with the empty keyword returns the whole collection
in order, under the collection invariant that every record carries an `id`
field (so every record has at least one value, and the empty string is a
substring of its string form). -/
theorem C10_confirmed :
    ∀ (m : DataManager),
      (∀ r ∈ m.data, rget r "id" ≠ none) →
      m.search_items "" = m.data := by
  intro m h
  unfold DataManager.search_items
  apply filter_eq_self_of_all
  intro r hr
  cases r with
  | nil => exact absurd rfl (h [] hr)
  | cons p rest =>
    show recordMatches "" (p :: rest) = true
    unfold recordMatches
    simp only [List.any_cons]
    rw [valueMatches_empty]
    rfl

/-- Claim C10, witness: the empty-keyword search on `[{id: 1}]` returns the
collection itself. -/
theorem C10_witness :
    DataManager.search_items ⟨[[("id", Scalar.int 1)]], FileContent.absent⟩ ""
      = [[("id", Scalar.int 1)]] :=
  C10_confirmed ⟨[[("id", Scalar.int 1)]], FileContent.absent⟩ (by decide)
